import Mathlib

/-!
# Verification of PNG text-chunk metadata (tEXt / zTXt / iTXt)

Shallow embedding of `src/text_metadata.rs`. Rust strings are modelled as
lists of Unicode code points (`List Nat`); byte sequences are also `List Nat`.
The external collaborators of the core (the zlib compression primitive, the
ISO-8859-1 / ASCII / UTF-8 transcoding primitives, and the container layer's
`encoder::write_chunk`) are not part of the source under verification; they
are modelled from the spec at their interface boundary (spec section 6).
Each chunk kind's operations are translated line by line from the source.
Mutating methods (`&mut self` in Rust) are embedded in state-passing style,
returning the possibly-updated record next to the result; error paths return
the record as it was at the early `return`, mirroring that the Rust code only
assigns to `self` after every fallible step has succeeded.
-/

/-- Modelled from the spec: transcoding boundary, `encode_strict(text, charset)`
for the single-byte-per-character charset (ISO-8859-1). A code point is
representable iff it is below 256, in which case the byte equals the code
point; otherwise strict encoding fails (Unrepresentable). -/
def latin1Encode (s : List Nat) : Option (List Nat) :=
  if s.all (fun c => c < 256) then some s else none

/-- Modelled from the spec: transcoding boundary, `decode_strict(bytes, charset)`
for ISO-8859-1. Every byte (value below 256) maps to the equal code point. -/
def latin1Decode (b : List Nat) : Option (List Nat) :=
  if b.all (fun c => c < 256) then some b else none

/-- Modelled from the spec: transcoding boundary, strict 7-bit (ASCII) encode:
representable iff every code point is below 128. -/
def asciiEncode (s : List Nat) : Option (List Nat) :=
  if s.all (fun c => c < 128) then some s else none

/-- Modelled from the spec: transcoding boundary, strict 7-bit (ASCII) decode. -/
def asciiDecode (b : List Nat) : Option (List Nat) :=
  if b.all (fun c => c < 128) then some b else none

/-- Modelled from the spec: "UTF-8 validity check for the international
record's UTF-8 fields". A sequence is valid iff every element is a Unicode
scalar value (below 0x110000 and not a surrogate). -/
def utf8Valid (b : List Nat) : Bool :=
  b.all (fun c => c < 1114112 && !(55296 ≤ c && c < 57344))

/-- Modelled from the spec: UTF-8 decoding (`String::from_utf8`), abstracted so
that the wire text is its code-point sequence; it fails (Unrepresentable) on
input that is not valid UTF-8. -/
def utf8Decode (b : List Nat) : Option (List Nat) :=
  if utf8Valid b then some b else none

/-- Modelled from the spec: UTF-8 byte view of a string (`s.as_bytes()`),
abstracted to the code-point sequence; infallible on Rust strings. -/
def utf8Bytes (s : List Nat) : List Nat := s

/-- Modelled from the spec: compression boundary,
`compress(bytes) -> compressed bytes` (`ZlibEncoder` over an in-memory
buffer, which cannot fail). The model tags the payload with the two-byte
zlib-style header 120, 1. -/
def compressModel (b : List Nat) : List Nat := 120 :: 1 :: b

/-- Modelled from the spec: compression boundary,
`decompress(bytes) -> bytes | error` (`decompress_to_vec_zlib`): inverts
`compressModel`, failing on any stream that does not carry the header. -/
def decompressModel : List Nat → Option (List Nat)
  | 120 :: 1 :: rest => some rest
  | _ => none

/-- Text encoding errors (`TextEncodingError` in the source). -/
inductive TextEncodingError
  | Unrepresentable
  | InvalidKeywordSize
  | CompressionError
deriving DecidableEq, Repr

/-- Text decoding errors (`TextDecodingError` in the source). -/
inductive TextDecodingError
  | Unrepresentable
  | InvalidKeywordSize
  | MissingNullSeparator
  | InflationError
  | InvalidCompressionMethod
  | InvalidCompressionFlag
  | MissingCompressionFlag
deriving DecidableEq, Repr

/-- Enum encoding the compressed and uncompressed states of the zTXt/iTXt
text field (`OptCompressed` in the source). -/
inductive OptCompressed
  | Compressed : List Nat → OptCompressed
  | Uncompressed : List Nat → OptCompressed
deriving DecidableEq, Repr

/-- Struct representing a tEXt chunk. -/
structure TEXtChunk where
  keyword : List Nat
  text : List Nat
deriving DecidableEq, Repr

/-- Struct representing a zTXt chunk. -/
structure ZTXtChunk where
  keyword : List Nat
  optionally_compressed_text : OptCompressed
deriving DecidableEq, Repr

/-- Struct representing an iTXt chunk. -/
structure ITXtChunk where
  keyword : List Nat
  compressed : Bool
  language_tag : List Nat
  translated_keyword : List Nat
  optionally_compressed_text : OptCompressed
deriving DecidableEq, Repr

/-- Modelled from the spec (the container layer is outside the core):
`encoder::write_chunk` appends a framed chunk (type tag then payload; the
length prefix and checksum framing are abstracted away) to the byte sink. -/
def writeChunk (w : List Nat) (tag : List Nat) (data : List Nat) : List Nat :=
  w ++ tag ++ data

/-- Chunk type tag `chunk::tEXt` (ASCII bytes of "tEXt"). -/
def tEXtTag : List Nat := [116, 69, 88, 116]

/-- Chunk type tag `chunk::zTXt` (ASCII bytes of "zTXt"). -/
def zTXtTag : List Nat := [122, 84, 88, 116]

/-- Chunk type tag `chunk::iTXt` (ASCII bytes of "iTXt"). -/
def iTXtTag : List Nat := [105, 84, 88, 116]

/-- Translation of `TEXtChunk::decode`: keyword size check, then strict Latin-1 decoding of
keyword and text. -/
def TEXtChunk.decode (keyword_slice text_slice : List Nat) :
    Except TextDecodingError TEXtChunk :=
  if keyword_slice.length = 0 ∨ 79 < keyword_slice.length then
    Except.error TextDecodingError.InvalidKeywordSize
  else
    match latin1Decode keyword_slice with
    | none => Except.error TextDecodingError.Unrepresentable
    | some kw =>
      match latin1Decode text_slice with
      | none => Except.error TextDecodingError.Unrepresentable
      | some t => Except.ok { keyword := kw, text := t }

/-- The data-assembly part of `TEXtChunk::encode`: Latin-1 encode the keyword,
size-check it, append the null separator and the Latin-1 encoded text. The
assembled payload is handed to `write_chunk` by `TEXtChunk.encode`. -/
def TEXtChunk.buildData (c : TEXtChunk) : Except TextEncodingError (List Nat) :=
  match latin1Encode c.keyword with
  | none => Except.error TextEncodingError.Unrepresentable
  | some data =>
    if data.length = 0 ∨ 79 < data.length then
      Except.error TextEncodingError.InvalidKeywordSize
    else
      match latin1Encode c.text with
      | none => Except.error TextEncodingError.Unrepresentable
      | some t => Except.ok (data ++ 0 :: t)

/-- Translation of `TEXtChunk::encode`: builds the payload, and only on success writes to the
sink `w` (the Rust function's single use of `w` is the final `write_chunk`). -/
def TEXtChunk.encode (c : TEXtChunk) (w : List Nat) :
    Except TextEncodingError Unit × List Nat :=
  match TEXtChunk.buildData c with
  | Except.error e => (Except.error e, w)
  | Except.ok data => (Except.ok (), writeChunk w tEXtTag data)

/-- Translation of `ZTXtChunk::decode`: keyword size check, compression-method check, strict
Latin-1 keyword decode; the text bytes are stored compressed, as-is. -/
def ZTXtChunk.decode (keyword_slice : List Nat) (compression_method : Nat)
    (text_slice : List Nat) : Except TextDecodingError ZTXtChunk :=
  if keyword_slice.length = 0 ∨ 79 < keyword_slice.length then
    Except.error TextDecodingError.InvalidKeywordSize
  else if compression_method ≠ 0 then
    Except.error TextDecodingError.InvalidCompressionMethod
  else
    match latin1Decode keyword_slice with
    | none => Except.error TextDecodingError.Unrepresentable
    | some kw =>
      Except.ok { keyword := kw,
                  optionally_compressed_text := OptCompressed.Compressed text_slice }

/-- Translation of `ZTXtChunk::decompress_text` (state-passing): when the state is
Compressed, inflate and strict Latin-1 decode, replacing the stored variant
only when both steps succeed; no-op when already Uncompressed. -/
def ZTXtChunk.decompress_text (c : ZTXtChunk) :
    Except TextDecodingError Unit × ZTXtChunk :=
  match c.optionally_compressed_text with
  | OptCompressed.Compressed v =>
    match decompressModel v with
    | none => (Except.error TextDecodingError.InflationError, c)
    | some uncompressed_raw =>
      match latin1Decode uncompressed_raw with
      | none => (Except.error TextDecodingError.Unrepresentable, c)
      | some s =>
        (Except.ok (), { c with optionally_compressed_text := OptCompressed.Uncompressed s })
  | OptCompressed.Uncompressed _ => (Except.ok (), c)

/-- Translation of `ZTXtChunk::get_text`: decompress and decode on the fly when Compressed,
return a copy of the stored string when Uncompressed. Takes the record by
shared reference in the source, so it cannot mutate it. -/
def ZTXtChunk.get_text (c : ZTXtChunk) : Except TextDecodingError (List Nat) :=
  match c.optionally_compressed_text with
  | OptCompressed.Compressed v =>
    match decompressModel v with
    | none => Except.error TextDecodingError.InflationError
    | some uncompressed_raw =>
      match latin1Decode uncompressed_raw with
      | none => Except.error TextDecodingError.Unrepresentable
      | some s => Except.ok s
  | OptCompressed.Uncompressed s => Except.ok s

/-- Translation of `ZTXtChunk::compress_text` (state-passing): when Uncompressed, strict
Latin-1 encode then compress (the in-memory compressor is infallible, so the
source's CompressionError arms are dead); no-op when already Compressed. -/
def ZTXtChunk.compress_text (c : ZTXtChunk) :
    Except TextEncodingError Unit × ZTXtChunk :=
  match c.optionally_compressed_text with
  | OptCompressed.Uncompressed s =>
    match latin1Encode s with
    | none => (Except.error TextEncodingError.Unrepresentable, c)
    | some uncompressed_raw =>
      (Except.ok (),
       { c with optionally_compressed_text :=
           OptCompressed.Compressed (compressModel uncompressed_raw) })
  | OptCompressed.Compressed _ => (Except.ok (), c)

/-- The data-assembly part of `ZTXtChunk::encode`: keyword (encoded and
size-checked), null separator, fixed method byte 0, then the already
compressed bytes verbatim or the freshly compressed encoded text. -/
def ZTXtChunk.buildData (c : ZTXtChunk) : Except TextEncodingError (List Nat) :=
  match latin1Encode c.keyword with
  | none => Except.error TextEncodingError.Unrepresentable
  | some data =>
    if data.length = 0 ∨ 79 < data.length then
      Except.error TextEncodingError.InvalidKeywordSize
    else
      match c.optionally_compressed_text with
      | OptCompressed.Compressed v => Except.ok (data ++ 0 :: 0 :: v)
      | OptCompressed.Uncompressed s =>
        match latin1Encode s with
        | none => Except.error TextEncodingError.Unrepresentable
        | some uncompressed_raw =>
          Except.ok (data ++ 0 :: 0 :: compressModel uncompressed_raw)

/-- Translation of `ZTXtChunk::encode`: builds the payload, and only on success writes to the
sink `w`. -/
def ZTXtChunk.encode (c : ZTXtChunk) (w : List Nat) :
    Except TextEncodingError Unit × List Nat :=
  match ZTXtChunk.buildData c with
  | Except.error e => (Except.error e, w)
  | Except.ok data => (Except.ok (), writeChunk w zTXtTag data)

/-- The part of `ITXtChunk::decode` after the compression flag has been read
(split out of `ITXtChunk.decode` only to name the two flag branches once). -/
def ITXtChunk.decodeTail (keyword : List Nat) (compressed : Bool)
    (compression_method : Nat) (language_tag_slice : List Nat)
    (translated_keyword_slice : List Nat) (text_slice : List Nat) :
    Except TextDecodingError ITXtChunk :=
  if compressed ∧ compression_method ≠ 0 then
    Except.error TextDecodingError.InvalidCompressionMethod
  else
    match asciiDecode language_tag_slice with
    | none => Except.error TextDecodingError.Unrepresentable
    | some language_tag =>
      match utf8Decode translated_keyword_slice with
      | none => Except.error TextDecodingError.Unrepresentable
      | some translated_keyword =>
        if compressed then
          Except.ok { keyword := keyword, compressed := compressed,
                      language_tag := language_tag,
                      translated_keyword := translated_keyword,
                      optionally_compressed_text := OptCompressed.Compressed text_slice }
        else
          match utf8Decode text_slice with
          | none => Except.error TextDecodingError.Unrepresentable
          | some t =>
            Except.ok { keyword := keyword, compressed := compressed,
                        language_tag := language_tag,
                        translated_keyword := translated_keyword,
                        optionally_compressed_text := OptCompressed.Uncompressed t }

/-- Translation of `ITXtChunk::decode`: keyword size check and strict Latin-1 decode,
compression flag byte (0 false, 255 true, else InvalidCompressionFlag),
method byte checked only when the flag is set, ASCII language tag, UTF-8
translated keyword; text is stored compressed as-is when the flag is set,
otherwise UTF-8 decoded immediately. -/
def ITXtChunk.decode (keyword_slice : List Nat) (compression_flag : Nat)
    (compression_method : Nat) (language_tag_slice : List Nat)
    (translated_keyword_slice : List Nat) (text_slice : List Nat) :
    Except TextDecodingError ITXtChunk :=
  if keyword_slice.length = 0 ∨ 79 < keyword_slice.length then
    Except.error TextDecodingError.InvalidKeywordSize
  else
    match latin1Decode keyword_slice with
    | none => Except.error TextDecodingError.Unrepresentable
    | some keyword =>
      if compression_flag = 0 then
        ITXtChunk.decodeTail keyword false compression_method language_tag_slice
          translated_keyword_slice text_slice
      else if compression_flag = 255 then
        ITXtChunk.decodeTail keyword true compression_method language_tag_slice
          translated_keyword_slice text_slice
      else Except.error TextDecodingError.InvalidCompressionFlag

/-- Translation of `ITXtChunk::decompress_text` (state-passing): inflate then require valid
UTF-8; replace the stored variant only when both succeed; no-op when already
Uncompressed. -/
def ITXtChunk.decompress_text (c : ITXtChunk) :
    Except TextDecodingError Unit × ITXtChunk :=
  match c.optionally_compressed_text with
  | OptCompressed.Compressed v =>
    match decompressModel v with
    | none => (Except.error TextDecodingError.InflationError, c)
    | some uncompressed_raw =>
      match utf8Decode uncompressed_raw with
      | none => (Except.error TextDecodingError.Unrepresentable, c)
      | some s =>
        (Except.ok (), { c with optionally_compressed_text := OptCompressed.Uncompressed s })
  | OptCompressed.Uncompressed _ => (Except.ok (), c)

/-- Translation of `ITXtChunk::get_text`: decompress and UTF-8 validate on the fly when
Compressed, return a copy of the stored string when Uncompressed. -/
def ITXtChunk.get_text (c : ITXtChunk) : Except TextDecodingError (List Nat) :=
  match c.optionally_compressed_text with
  | OptCompressed.Compressed v =>
    match decompressModel v with
    | none => Except.error TextDecodingError.InflationError
    | some uncompressed_raw =>
      match utf8Decode uncompressed_raw with
      | none => Except.error TextDecodingError.Unrepresentable
      | some s => Except.ok s
  | OptCompressed.Uncompressed s => Except.ok s

/-- Translation of `ITXtChunk::compress_text` (state-passing): when Uncompressed, compress
the UTF-8 bytes (both steps are infallible in the model, matching the
in-memory compressor); no-op when already Compressed. -/
def ITXtChunk.compress_text (c : ITXtChunk) :
    Except TextEncodingError Unit × ITXtChunk :=
  match c.optionally_compressed_text with
  | OptCompressed.Uncompressed s =>
    (Except.ok (),
     { c with optionally_compressed_text :=
         OptCompressed.Compressed (compressModel (utf8Bytes s)) })
  | OptCompressed.Compressed _ => (Except.ok (), c)

/-- The data-assembly part of `ITXtChunk::encode`: keyword (encoded,
size-checked), null separator, flag byte (255 when `compressed` else 0),
method byte 0, ASCII language tag, separator, raw UTF-8 translated keyword,
separator, then the text in the wire form dictated by the `compressed` flag:
compressed verbatim or freshly compressed when the flag is set; decompressed
(inflation failure mapped to CompressionError) or plain bytes otherwise. -/
def ITXtChunk.buildData (c : ITXtChunk) : Except TextEncodingError (List Nat) :=
  match latin1Encode c.keyword with
  | none => Except.error TextEncodingError.Unrepresentable
  | some data =>
    if data.length = 0 ∨ 79 < data.length then
      Except.error TextEncodingError.InvalidKeywordSize
    else
      match asciiEncode c.language_tag with
      | none => Except.error TextEncodingError.Unrepresentable
      | some lang =>
        let head := data ++ 0 :: (if c.compressed then 255 else 0) :: 0 ::
          (lang ++ 0 :: (utf8Bytes c.translated_keyword ++ [0]))
        if c.compressed then
          match c.optionally_compressed_text with
          | OptCompressed.Compressed v => Except.ok (head ++ v)
          | OptCompressed.Uncompressed s =>
            Except.ok (head ++ compressModel (utf8Bytes s))
        else
          match c.optionally_compressed_text with
          | OptCompressed.Compressed v =>
            match decompressModel v with
            | none => Except.error TextEncodingError.CompressionError
            | some uncompressed_raw => Except.ok (head ++ uncompressed_raw)
          | OptCompressed.Uncompressed s => Except.ok (head ++ utf8Bytes s)

/-- Translation of `ITXtChunk::encode`: builds the payload, and only on success writes to the
sink `w`. -/
def ITXtChunk.encode (c : ITXtChunk) (w : List Nat) :
    Except TextEncodingError Unit × List Nat :=
  match ITXtChunk.buildData c with
  | Except.error e => (Except.error e, w)
  | Except.ok data => (Except.ok (), writeChunk w iTXtTag data)

/-- Validity of the UTF-8 text fields of an `ITXtChunk`, as guaranteed by the
Rust `String` type for the decoded fields, together with well-formedness of a
cached compressed text (its decompression, when it succeeds, is valid UTF-8). -/
def ITXtChunk.textFieldsValid (c : ITXtChunk) : Bool :=
  utf8Valid c.translated_keyword &&
  (match c.optionally_compressed_text with
   | OptCompressed.Uncompressed s => utf8Valid s
   | OptCompressed.Compressed v =>
     match decompressModel v with
     | some raw => utf8Valid raw
     | none => true)

/-! ## Helper lemmas about the modelled boundaries -/

theorem latin1Encode_of_all {s : List Nat} (h : s.all (fun c => c < 256) = true) :
    latin1Encode s = some s := by
  simp [latin1Encode, h]

theorem latin1Decode_of_all {b : List Nat} (h : b.all (fun c => c < 256) = true) :
    latin1Decode b = some b := by
  simp [latin1Decode, h]

theorem asciiEncode_of_all {s : List Nat} (h : s.all (fun c => c < 128) = true) :
    asciiEncode s = some s := by
  simp [asciiEncode, h]

theorem asciiDecode_of_all {b : List Nat} (h : b.all (fun c => c < 128) = true) :
    asciiDecode b = some b := by
  simp [asciiDecode, h]

theorem utf8Decode_of_valid {b : List Nat} (h : utf8Valid b = true) :
    utf8Decode b = some b := by
  simp [utf8Decode, h]

theorem decompress_compress (b : List Nat) :
    decompressModel (compressModel b) = some b := rfl

theorem latin1Encode_some {s t : List Nat} (h : latin1Encode s = some t) :
    s.all (fun c => c < 256) = true ∧ t = s := by
  by_cases hs : s.all (fun c => c < 256) = true
  · refine ⟨hs, ?_⟩
    rw [latin1Encode_of_all hs] at h
    exact (Option.some.injEq _ _ ▸ h).symm
  · simp [latin1Encode, hs] at h

theorem asciiEncode_some {s t : List Nat} (h : asciiEncode s = some t) :
    s.all (fun c => c < 128) = true ∧ t = s := by
  by_cases hs : s.all (fun c => c < 128) = true
  · refine ⟨hs, ?_⟩
    rw [asciiEncode_of_all hs] at h
    exact (Option.some.injEq _ _ ▸ h).symm
  · simp [asciiEncode, hs] at h

/-- Lemma: `ITXtChunk.decodeTail` cannot produce an `InvalidKeywordSize` error: the
keyword size check happens before the flag is read. -/
theorem ITXtChunk.decodeTail_ne_kw (keyword : List Nat) (compressed : Bool)
    (cm : Nat) (lg tk t : List Nat) :
    ITXtChunk.decodeTail keyword compressed cm lg tk t ≠
      Except.error TextDecodingError.InvalidKeywordSize := by
  unfold ITXtChunk.decodeTail
  split
  · simp
  · cases asciiDecode lg with
    | none => simp
    | some lang =>
      cases utf8Decode tk with
      | none => simp
      | some t' =>
        simp only
        split
        · simp
        · cases utf8Decode t with
          | none => simp
          | some tt => simp

/-! ## Claims -/

/-- C3: for every record kind, a keyword whose encoded length is 0 or at least
80 makes decode fail with InvalidKeywordSize and makes encode fail with
InvalidKeywordSize, while keywords of length 1 through 79 pass this check
(the operations never report InvalidKeywordSize for them). -/
theorem keyword_size_check (kw : List Nat)
    (hall : kw.all (fun c => c < 256) = true) :
    ((kw.length = 0 ∨ 80 ≤ kw.length) →
      (∀ t, TEXtChunk.decode kw t =
        Except.error TextDecodingError.InvalidKeywordSize) ∧
      (∀ cm t, ZTXtChunk.decode kw cm t =
        Except.error TextDecodingError.InvalidKeywordSize) ∧
      (∀ cf cm lg tk t, ITXtChunk.decode kw cf cm lg tk t =
        Except.error TextDecodingError.InvalidKeywordSize) ∧
      (∀ txt, TEXtChunk.buildData ⟨kw, txt⟩ =
        Except.error TextEncodingError.InvalidKeywordSize) ∧
      (∀ oc, ZTXtChunk.buildData ⟨kw, oc⟩ =
        Except.error TextEncodingError.InvalidKeywordSize) ∧
      (∀ cp lg tk oc, ITXtChunk.buildData ⟨kw, cp, lg, tk, oc⟩ =
        Except.error TextEncodingError.InvalidKeywordSize)) ∧
    ((1 ≤ kw.length ∧ kw.length ≤ 79) →
      (∀ t, TEXtChunk.decode kw t ≠
        Except.error TextDecodingError.InvalidKeywordSize) ∧
      (∀ cm t, ZTXtChunk.decode kw cm t ≠
        Except.error TextDecodingError.InvalidKeywordSize) ∧
      (∀ cf cm lg tk t, ITXtChunk.decode kw cf cm lg tk t ≠
        Except.error TextDecodingError.InvalidKeywordSize) ∧
      (∀ txt, TEXtChunk.buildData ⟨kw, txt⟩ ≠
        Except.error TextEncodingError.InvalidKeywordSize) ∧
      (∀ oc, ZTXtChunk.buildData ⟨kw, oc⟩ ≠
        Except.error TextEncodingError.InvalidKeywordSize) ∧
      (∀ cp lg tk oc, ITXtChunk.buildData ⟨kw, cp, lg, tk, oc⟩ ≠
        Except.error TextEncodingError.InvalidKeywordSize)) := by
  constructor
  · intro hbad
    have hguard : kw.length = 0 ∨ 79 < kw.length := by omega
    refine ⟨?_, ?_, ?_, ?_, ?_, ?_⟩
    · intro t
      simp only [TEXtChunk.decode]
      rw [if_pos hguard]
    · intro cm t
      simp only [ZTXtChunk.decode]
      rw [if_pos hguard]
    · intro cf cm lg tk t
      simp only [ITXtChunk.decode]
      rw [if_pos hguard]
    · intro txt
      simp only [TEXtChunk.buildData, latin1Encode_of_all hall]
      rw [if_pos hguard]
    · intro oc
      simp only [ZTXtChunk.buildData, latin1Encode_of_all hall]
      rw [if_pos hguard]
    · intro cp lg tk oc
      simp only [ITXtChunk.buildData, latin1Encode_of_all hall]
      rw [if_pos hguard]
  · intro hgood
    have hguard : ¬(kw.length = 0 ∨ 79 < kw.length) := by omega
    refine ⟨?_, ?_, ?_, ?_, ?_, ?_⟩
    · intro t
      simp only [TEXtChunk.decode]
      rw [if_neg hguard]
      cases latin1Decode kw with
      | none => simp
      | some k =>
        cases latin1Decode t with
        | none => simp
        | some t' => simp
    · intro cm t
      simp only [ZTXtChunk.decode]
      rw [if_neg hguard]
      split
      · simp
      · cases latin1Decode kw with
        | none => simp
        | some k => simp
    · intro cf cm lg tk t
      simp only [ITXtChunk.decode]
      rw [if_neg hguard]
      cases latin1Decode kw with
      | none => simp
      | some k =>
        simp only
        split
        · exact ITXtChunk.decodeTail_ne_kw _ _ _ _ _ _
        · split
          · exact ITXtChunk.decodeTail_ne_kw _ _ _ _ _ _
          · simp
    · intro txt
      simp only [TEXtChunk.buildData, latin1Encode_of_all hall]
      rw [if_neg hguard]
      cases latin1Encode txt with
      | none => simp
      | some t' => simp
    · intro oc
      simp only [ZTXtChunk.buildData, latin1Encode_of_all hall]
      rw [if_neg hguard]
      cases oc with
      | Compressed v => simp
      | Uncompressed s =>
        cases h : latin1Encode s with
        | none => simp [h]
        | some raw => simp [h]
    · intro cp lg tk oc
      simp only [ITXtChunk.buildData, latin1Encode_of_all hall]
      rw [if_neg hguard]
      cases asciiEncode lg with
      | none => simp
      | some lang =>
        simp only
        split
        · cases oc with
          | Compressed v => simp
          | Uncompressed s => simp
        · cases oc with
          | Compressed v =>
            cases h : decompressModel v with
            | none => simp [h]
            | some raw => simp [h]
          | Uncompressed s => simp

/-- Witness for C3 at the concrete keywords [] (empty) and [75] ("K"). -/
theorem keyword_size_check_witness :
    TEXtChunk.decode [] [72] = Except.error TextDecodingError.InvalidKeywordSize ∧
    TEXtChunk.decode [75] [72] ≠ Except.error TextDecodingError.InvalidKeywordSize := by
  constructor
  · exact ((keyword_size_check [] (by decide)).1 (by decide)).1 [72]
  · exact ((keyword_size_check [75] (by decide)).2 (by decide)).1 [72]

/-- A record returned by `ITXtChunk.decodeTail` carries the compressed flag it
was given (the flag byte already translated to a boolean). -/
theorem ITXtChunk.decodeTail_compressed_eq (k : List Nat) (b : Bool) (cm : Nat)
    (lg tk t : List Nat) (r : ITXtChunk)
    (h : ITXtChunk.decodeTail k b cm lg tk t = Except.ok r) :
    r.compressed = b := by
  unfold ITXtChunk.decodeTail at h
  split at h
  · simp at h
  · cases hl : asciiDecode lg <;> rw [hl] at h
    · simp at h
    · cases ht : utf8Decode tk <;> rw [ht] at h
      · simp at h
      · simp only at h
        split at h
        · rw [Except.ok.injEq] at h
          rw [← h]
        · cases htx : utf8Decode t <;> rw [htx] at h
          · simp at h
          · rw [Except.ok.injEq] at h
            rw [← h]

/-- When the compressed flag is false, `ITXtChunk.decodeTail` never reads the
compression-method byte. -/
theorem ITXtChunk.decodeTail_method_irrelevant (k : List Nat) (cm cm' : Nat)
    (lg tk t : List Nat) :
    ITXtChunk.decodeTail k false cm lg tk t =
      ITXtChunk.decodeTail k false cm' lg tk t := by
  simp [ITXtChunk.decodeTail]

/-- C4: in an international-text decode, a compression-flag byte of 0 yields
a record with the compressed flag false, 255 yields the flag true, and any
other byte fails with InvalidCompressionFlag. -/
theorem itxt_compression_flag (kw : List Nat)
    (h1 : 1 ≤ kw.length) (h2 : kw.length ≤ 79)
    (hall : kw.all (fun c => c < 256) = true) :
    (∀ cf cm lg tk t, cf ≠ 0 → cf ≠ 255 →
      ITXtChunk.decode kw cf cm lg tk t =
        Except.error TextDecodingError.InvalidCompressionFlag) ∧
    (∀ cm lg tk t r, ITXtChunk.decode kw 0 cm lg tk t = Except.ok r →
      r.compressed = false) ∧
    (∀ cm lg tk t r, ITXtChunk.decode kw 255 cm lg tk t = Except.ok r →
      r.compressed = true) := by
  have hguard : ¬(kw.length = 0 ∨ 79 < kw.length) := by omega
  refine ⟨?_, ?_, ?_⟩
  · intro cf cm lg tk t hcf hcf'
    simp only [ITXtChunk.decode]
    rw [if_neg hguard, latin1Decode_of_all hall]
    simp only
    rw [if_neg hcf, if_neg hcf']
  · intro cm lg tk t r h
    simp only [ITXtChunk.decode] at h
    rw [if_neg hguard, latin1Decode_of_all hall] at h
    simp at h
    exact ITXtChunk.decodeTail_compressed_eq _ _ _ _ _ _ _ h
  · intro cm lg tk t r h
    simp only [ITXtChunk.decode] at h
    rw [if_neg hguard, latin1Decode_of_all hall] at h
    simp at h
    exact ITXtChunk.decodeTail_compressed_eq _ _ _ _ _ _ _ h

/-- Witness for C4: flag byte 7 is rejected; flag bytes 0 and 255 set the
compressed flag to false and true on the concrete keyword [75]. -/
theorem itxt_compression_flag_witness :
    ITXtChunk.decode [75] 7 0 [] [] [] =
      Except.error TextDecodingError.InvalidCompressionFlag ∧
    ({ keyword := [75], compressed := false, language_tag := [],
       translated_keyword := [],
       optionally_compressed_text := OptCompressed.Uncompressed [] } :
       ITXtChunk).compressed = false ∧
    ({ keyword := [75], compressed := true, language_tag := [],
       translated_keyword := [],
       optionally_compressed_text := OptCompressed.Compressed [] } :
       ITXtChunk).compressed = true := by
  have h := itxt_compression_flag [75] (by decide) (by decide) (by decide)
  refine ⟨h.1 7 0 [] [] [] (by decide) (by decide), ?_, ?_⟩
  · exact h.2.1 0 [] [] [] _ rfl
  · exact h.2.2 0 [] [] [] _ rfl

/-- C5: a nonzero compression-method byte makes compressed-text decode fail
with InvalidCompressionMethod, and makes international-text decode fail with
InvalidCompressionMethod when the compression flag is set; when the flag is
0, international-text decode ignores the method byte entirely. -/
theorem compression_method_check :
    (∀ (kw : List Nat) (cm : Nat) (t : List Nat),
      1 ≤ kw.length → kw.length ≤ 79 → cm ≠ 0 →
      ZTXtChunk.decode kw cm t =
        Except.error TextDecodingError.InvalidCompressionMethod) ∧
    (∀ (kw : List Nat) (cm : Nat) (lg tk t : List Nat),
      1 ≤ kw.length → kw.length ≤ 79 →
      kw.all (fun c => c < 256) = true → cm ≠ 0 →
      ITXtChunk.decode kw 255 cm lg tk t =
        Except.error TextDecodingError.InvalidCompressionMethod) ∧
    (∀ (kw : List Nat) (cm cm' : Nat) (lg tk t : List Nat),
      ITXtChunk.decode kw 0 cm lg tk t = ITXtChunk.decode kw 0 cm' lg tk t) := by
  refine ⟨?_, ?_, ?_⟩
  · intro kw cm t hk1 hk2 hcm
    have hguard : ¬(kw.length = 0 ∨ 79 < kw.length) := by omega
    simp only [ZTXtChunk.decode]
    rw [if_neg hguard, if_pos hcm]
  · intro kw cm lg tk t hk1 hk2 hall hcm
    have hguard : ¬(kw.length = 0 ∨ 79 < kw.length) := by omega
    simp only [ITXtChunk.decode]
    rw [if_neg hguard, latin1Decode_of_all hall]
    simp [ITXtChunk.decodeTail, hcm]
  · intro kw cm cm' lg tk t
    simp only [ITXtChunk.decode]
    by_cases hguard : kw.length = 0 ∨ 79 < kw.length
    · rw [if_pos hguard, if_pos hguard]
    · rw [if_neg hguard, if_neg hguard]
      cases hk : latin1Decode kw with
      | none => simp
      | some k =>
        simp only
        exact ITXtChunk.decodeTail_method_irrelevant k cm cm' lg tk t

/-- Witness for C5: method byte 3 is rejected by the compressed-text decoder
and by the international-text decoder with flag 255, and with flag 0 the
method byte 3 gives the same outcome as method byte 0. -/
theorem compression_method_check_witness :
    ZTXtChunk.decode [75] 3 [] =
      Except.error TextDecodingError.InvalidCompressionMethod ∧
    ITXtChunk.decode [75] 255 3 [] [] [] =
      Except.error TextDecodingError.InvalidCompressionMethod ∧
    ITXtChunk.decode [75] 0 3 [] [] [] = ITXtChunk.decode [75] 0 0 [] [] [] := by
  refine ⟨?_, ?_, ?_⟩
  · exact compression_method_check.1 [75] 3 [] (by decide) (by decide) (by decide)
  · exact compression_method_check.2.1 [75] 3 [] [] []
      (by decide) (by decide) (by decide) (by decide)
  · exact compression_method_check.2.2 [75] 3 0 [] [] []

/-- Inversion for the modelled UTF-8 decoder. -/
theorem utf8Decode_some {b t : List Nat} (h : utf8Decode b = some t) :
    utf8Valid b = true ∧ t = b := by
  by_cases hv : utf8Valid b = true
  · rw [utf8Decode_of_valid hv] at h
    exact ⟨hv, (Option.some.injEq _ _ ▸ h).symm⟩
  · simp [utf8Decode, hv] at h

/-! ## Compression-state transition lemmas -/

theorem ztxt_compress_then_decompress (c c1 c2 : ZTXtChunk)
    (h1 : ZTXtChunk.compress_text c = (Except.ok (), c1))
    (h2 : ZTXtChunk.decompress_text c1 = (Except.ok (), c2)) :
    ZTXtChunk.get_text c2 = ZTXtChunk.get_text c := by
  cases hoc : c.optionally_compressed_text with
  | Uncompressed s =>
    simp only [ZTXtChunk.compress_text, hoc] at h1
    cases hs : latin1Encode s with
    | none => rw [hs] at h1; simp at h1
    | some raw =>
      obtain ⟨hall, hrs⟩ := latin1Encode_some hs
      subst hrs
      rw [hs] at h1
      simp only [Prod.mk.injEq, true_and] at h1
      subst h1
      simp only [ZTXtChunk.decompress_text, decompress_compress,
        latin1Decode_of_all hall] at h2
      simp only [Prod.mk.injEq, true_and] at h2
      subst h2
      simp [ZTXtChunk.get_text, hoc]
  | Compressed v =>
    simp only [ZTXtChunk.compress_text, hoc] at h1
    simp only [Prod.mk.injEq, true_and] at h1
    subst h1
    simp only [ZTXtChunk.decompress_text, hoc] at h2
    cases hd : decompressModel v with
    | none => rw [hd] at h2; simp at h2
    | some raw =>
      simp only [hd] at h2
      cases hl : latin1Decode raw with
      | none => rw [hl] at h2; simp at h2
      | some s =>
        simp only [hl] at h2
        simp only [Prod.mk.injEq, true_and] at h2
        subst h2
        simp [ZTXtChunk.get_text, hoc, hd, hl]

theorem ztxt_decompress_then_compress (c c1 c2 : ZTXtChunk)
    (h1 : ZTXtChunk.decompress_text c = (Except.ok (), c1))
    (h2 : ZTXtChunk.compress_text c1 = (Except.ok (), c2)) :
    ZTXtChunk.get_text c2 = ZTXtChunk.get_text c := by
  cases hoc : c.optionally_compressed_text with
  | Uncompressed s =>
    simp only [ZTXtChunk.decompress_text, hoc] at h1
    simp only [Prod.mk.injEq, true_and] at h1
    subst h1
    simp only [ZTXtChunk.compress_text, hoc] at h2
    cases hs : latin1Encode s with
    | none => rw [hs] at h2; simp at h2
    | some raw =>
      obtain ⟨hall, hrs⟩ := latin1Encode_some hs
      subst hrs
      rw [hs] at h2
      simp only [Prod.mk.injEq, true_and] at h2
      subst h2
      simp [ZTXtChunk.get_text, hoc, decompress_compress, latin1Decode_of_all hall]
  | Compressed v =>
    simp only [ZTXtChunk.decompress_text, hoc] at h1
    cases hd : decompressModel v with
    | none => rw [hd] at h1; simp at h1
    | some raw =>
      simp only [hd] at h1
      cases hl : latin1Decode raw with
      | none => rw [hl] at h1; simp at h1
      | some s =>
        simp only [hl] at h1
        simp only [Prod.mk.injEq, true_and] at h1
        subst h1
        simp only [ZTXtChunk.compress_text] at h2
        cases hs : latin1Encode s with
        | none => rw [hs] at h2; simp at h2
        | some raw2 =>
          obtain ⟨hall2, hrs2⟩ := latin1Encode_some hs
          subst hrs2
          rw [hs] at h2
          simp only [Prod.mk.injEq, true_and] at h2
          subst h2
          simp [ZTXtChunk.get_text, hoc, hd, hl, decompress_compress,
            latin1Decode_of_all hall2]

theorem itxt_compress_then_decompress (c c1 c2 : ITXtChunk)
    (h1 : ITXtChunk.compress_text c = (Except.ok (), c1))
    (h2 : ITXtChunk.decompress_text c1 = (Except.ok (), c2)) :
    ITXtChunk.get_text c2 = ITXtChunk.get_text c := by
  cases hoc : c.optionally_compressed_text with
  | Uncompressed s =>
    simp only [ITXtChunk.compress_text, hoc] at h1
    simp only [Prod.mk.injEq, true_and] at h1
    subst h1
    simp only [ITXtChunk.decompress_text, utf8Bytes, decompress_compress] at h2
    cases hu : utf8Decode s with
    | none => rw [hu] at h2; simp at h2
    | some t =>
      simp only [hu] at h2
      simp only [Prod.mk.injEq, true_and] at h2
      subst h2
      obtain ⟨hv, hts⟩ := utf8Decode_some hu
      subst hts
      simp [ITXtChunk.get_text, hoc]
  | Compressed v =>
    simp only [ITXtChunk.compress_text, hoc] at h1
    simp only [Prod.mk.injEq, true_and] at h1
    subst h1
    simp only [ITXtChunk.decompress_text, hoc] at h2
    cases hd : decompressModel v with
    | none => rw [hd] at h2; simp at h2
    | some raw =>
      simp only [hd] at h2
      cases hu : utf8Decode raw with
      | none => rw [hu] at h2; simp at h2
      | some s =>
        simp only [hu] at h2
        simp only [Prod.mk.injEq, true_and] at h2
        subst h2
        simp [ITXtChunk.get_text, hoc, hd, hu]

theorem itxt_decompress_then_compress (c c1 c2 : ITXtChunk)
    (hval : ∀ s, c.optionally_compressed_text = OptCompressed.Uncompressed s →
      utf8Valid s = true)
    (h1 : ITXtChunk.decompress_text c = (Except.ok (), c1))
    (h2 : ITXtChunk.compress_text c1 = (Except.ok (), c2)) :
    ITXtChunk.get_text c2 = ITXtChunk.get_text c := by
  cases hoc : c.optionally_compressed_text with
  | Uncompressed s =>
    have hv : utf8Valid s = true := hval s hoc
    simp only [ITXtChunk.decompress_text, hoc] at h1
    simp only [Prod.mk.injEq, true_and] at h1
    subst h1
    simp only [ITXtChunk.compress_text, hoc] at h2
    simp only [Prod.mk.injEq, true_and] at h2
    subst h2
    simp [ITXtChunk.get_text, utf8Bytes, decompress_compress,
      utf8Decode_of_valid hv, hoc]
  | Compressed v =>
    simp only [ITXtChunk.decompress_text, hoc] at h1
    cases hd : decompressModel v with
    | none => rw [hd] at h1; simp at h1
    | some raw =>
      simp only [hd] at h1
      cases hu : utf8Decode raw with
      | none => rw [hu] at h1; simp at h1
      | some s =>
        simp only [hu] at h1
        simp only [Prod.mk.injEq, true_and] at h1
        subst h1
        simp only [ITXtChunk.compress_text] at h2
        simp only [Prod.mk.injEq, true_and] at h2
        subst h2
        obtain ⟨hvraw, hsraw⟩ := utf8Decode_some hu
        subst hsraw
        simp [ITXtChunk.get_text, hoc, hd, utf8Bytes, decompress_compress,
          utf8Decode_of_valid hvraw]

/-- C6: for compressed-text and international-text records, compress_text
followed by decompress_text (or the reverse) preserves the text, and a call
on a record already in the target state is a no-op that succeeds and leaves
the state unchanged (for the international record the reverse composition
assumes the Rust String invariant that a stored decoded text is valid UTF-8). -/
theorem compress_decompress_round_trip :
    (∀ (c : ZTXtChunk) (s : List Nat),
      c.optionally_compressed_text = OptCompressed.Uncompressed s →
      ZTXtChunk.decompress_text c = (Except.ok (), c)) ∧
    (∀ (c : ZTXtChunk) (v : List Nat),
      c.optionally_compressed_text = OptCompressed.Compressed v →
      ZTXtChunk.compress_text c = (Except.ok (), c)) ∧
    (∀ (c c1 c2 : ZTXtChunk),
      ZTXtChunk.compress_text c = (Except.ok (), c1) →
      ZTXtChunk.decompress_text c1 = (Except.ok (), c2) →
      ZTXtChunk.get_text c2 = ZTXtChunk.get_text c) ∧
    (∀ (c c1 c2 : ZTXtChunk),
      ZTXtChunk.decompress_text c = (Except.ok (), c1) →
      ZTXtChunk.compress_text c1 = (Except.ok (), c2) →
      ZTXtChunk.get_text c2 = ZTXtChunk.get_text c) ∧
    (∀ (c : ITXtChunk) (s : List Nat),
      c.optionally_compressed_text = OptCompressed.Uncompressed s →
      ITXtChunk.decompress_text c = (Except.ok (), c)) ∧
    (∀ (c : ITXtChunk) (v : List Nat),
      c.optionally_compressed_text = OptCompressed.Compressed v →
      ITXtChunk.compress_text c = (Except.ok (), c)) ∧
    (∀ (c c1 c2 : ITXtChunk),
      ITXtChunk.compress_text c = (Except.ok (), c1) →
      ITXtChunk.decompress_text c1 = (Except.ok (), c2) →
      ITXtChunk.get_text c2 = ITXtChunk.get_text c) ∧
    (∀ (c c1 c2 : ITXtChunk),
      (∀ s, c.optionally_compressed_text = OptCompressed.Uncompressed s →
        utf8Valid s = true) →
      ITXtChunk.decompress_text c = (Except.ok (), c1) →
      ITXtChunk.compress_text c1 = (Except.ok (), c2) →
      ITXtChunk.get_text c2 = ITXtChunk.get_text c) := by
  refine ⟨?_, ?_, ztxt_compress_then_decompress, ztxt_decompress_then_compress,
    ?_, ?_, itxt_compress_then_decompress, itxt_decompress_then_compress⟩
  · intro c s h
    simp [ZTXtChunk.decompress_text, h]
  · intro c v h
    simp [ZTXtChunk.compress_text, h]
  · intro c s h
    simp [ITXtChunk.decompress_text, h]
  · intro c v h
    simp [ITXtChunk.compress_text, h]

/-- Witness for C6 at the concrete record with keyword [75] and text [65]:
no-op decompress on an uncompressed record, no-op compress on a compressed
record, and both round-trip compositions. -/
theorem compress_decompress_round_trip_witness :
    ZTXtChunk.decompress_text ⟨[75], OptCompressed.Uncompressed [65]⟩ =
      (Except.ok (), ⟨[75], OptCompressed.Uncompressed [65]⟩) ∧
    ITXtChunk.compress_text ⟨[75], true, [], [], OptCompressed.Compressed [9]⟩ =
      (Except.ok (), ⟨[75], true, [], [], OptCompressed.Compressed [9]⟩) ∧
    ZTXtChunk.get_text ⟨[75], OptCompressed.Uncompressed [65]⟩ =
      ZTXtChunk.get_text ⟨[75], OptCompressed.Uncompressed [65]⟩ ∧
    ITXtChunk.get_text
        (⟨[75], false, [], [], OptCompressed.Compressed [120, 1, 66]⟩ : ITXtChunk) =
      ITXtChunk.get_text ⟨[75], false, [], [], OptCompressed.Uncompressed [66]⟩ := by
  refine ⟨?_, ?_, ?_, ?_⟩
  · exact compress_decompress_round_trip.1 _ [65] rfl
  · exact compress_decompress_round_trip.2.2.2.2.2.1 _ [9] rfl
  · exact compress_decompress_round_trip.2.2.1
      ⟨[75], OptCompressed.Uncompressed [65]⟩
      ⟨[75], OptCompressed.Compressed [120, 1, 65]⟩
      ⟨[75], OptCompressed.Uncompressed [65]⟩ rfl rfl
  · exact compress_decompress_round_trip.2.2.2.2.2.2.2
      ⟨[75], false, [], [], OptCompressed.Uncompressed [66]⟩
      ⟨[75], false, [], [], OptCompressed.Uncompressed [66]⟩
      ⟨[75], false, [], [], OptCompressed.Compressed [120, 1, 66]⟩
      (fun s hs => by
        rw [show s = [66] from
          (OptCompressed.Uncompressed.injEq _ _ ▸ hs).symm]
        decide)
      rfl rfl

/-- C7: for compressed-text and international-text records, get_text (which
cannot mutate the record: it takes it by shared reference, embedded as a pure
function of the record) returns the stored string when the state is
Uncompressed, returns exactly the text a successful decompress_text would
store, and fails with exactly the error a failing decompress_text reports. -/
theorem get_text_matches_decompress :
    (∀ (c : ZTXtChunk) (s : List Nat),
      c.optionally_compressed_text = OptCompressed.Uncompressed s →
      ZTXtChunk.get_text c = Except.ok s) ∧
    (∀ (c c1 : ZTXtChunk) (s : List Nat),
      ZTXtChunk.decompress_text c = (Except.ok (), c1) →
      c1.optionally_compressed_text = OptCompressed.Uncompressed s →
      ZTXtChunk.get_text c = Except.ok s) ∧
    (∀ (c : ZTXtChunk) (e : TextDecodingError),
      (ZTXtChunk.decompress_text c).1 = Except.error e →
      ZTXtChunk.get_text c = Except.error e) ∧
    (∀ (c : ITXtChunk) (s : List Nat),
      c.optionally_compressed_text = OptCompressed.Uncompressed s →
      ITXtChunk.get_text c = Except.ok s) ∧
    (∀ (c c1 : ITXtChunk) (s : List Nat),
      ITXtChunk.decompress_text c = (Except.ok (), c1) →
      c1.optionally_compressed_text = OptCompressed.Uncompressed s →
      ITXtChunk.get_text c = Except.ok s) ∧
    (∀ (c : ITXtChunk) (e : TextDecodingError),
      (ITXtChunk.decompress_text c).1 = Except.error e →
      ITXtChunk.get_text c = Except.error e) := by
  refine ⟨?_, ?_, ?_, ?_, ?_, ?_⟩
  · intro c s h
    simp [ZTXtChunk.get_text, h]
  · intro c c1 s h1 h2
    cases hoc : c.optionally_compressed_text with
    | Uncompressed s0 =>
      simp only [ZTXtChunk.decompress_text, hoc] at h1
      simp only [Prod.mk.injEq, true_and] at h1
      subst h1
      rw [hoc] at h2
      rw [OptCompressed.Uncompressed.injEq] at h2
      subst h2
      simp [ZTXtChunk.get_text, hoc]
    | Compressed v =>
      simp only [ZTXtChunk.decompress_text, hoc] at h1
      cases hd : decompressModel v with
      | none => rw [hd] at h1; simp at h1
      | some raw =>
        simp only [hd] at h1
        cases hl : latin1Decode raw with
        | none => rw [hl] at h1; simp at h1
        | some s0 =>
          simp only [hl] at h1
          simp only [Prod.mk.injEq, true_and] at h1
          subst h1
          simp only [OptCompressed.Uncompressed.injEq] at h2
          subst h2
          simp [ZTXtChunk.get_text, hoc, hd, hl]
  · intro c e h
    cases hoc : c.optionally_compressed_text with
    | Uncompressed s =>
      simp [ZTXtChunk.decompress_text, hoc] at h
    | Compressed v =>
      simp only [ZTXtChunk.decompress_text, hoc] at h
      cases hd : decompressModel v with
      | none =>
        rw [hd] at h
        simp only [Except.error.injEq] at h
        subst h
        simp [ZTXtChunk.get_text, hoc, hd]
      | some raw =>
        simp only [hd] at h
        cases hl : latin1Decode raw with
        | none =>
          rw [hl] at h
          simp only [Except.error.injEq] at h
          subst h
          simp [ZTXtChunk.get_text, hoc, hd, hl]
        | some s => rw [hl] at h; simp at h
  · intro c s h
    simp [ITXtChunk.get_text, h]
  · intro c c1 s h1 h2
    cases hoc : c.optionally_compressed_text with
    | Uncompressed s0 =>
      simp only [ITXtChunk.decompress_text, hoc] at h1
      simp only [Prod.mk.injEq, true_and] at h1
      subst h1
      rw [hoc] at h2
      rw [OptCompressed.Uncompressed.injEq] at h2
      subst h2
      simp [ITXtChunk.get_text, hoc]
    | Compressed v =>
      simp only [ITXtChunk.decompress_text, hoc] at h1
      cases hd : decompressModel v with
      | none => rw [hd] at h1; simp at h1
      | some raw =>
        simp only [hd] at h1
        cases hu : utf8Decode raw with
        | none => rw [hu] at h1; simp at h1
        | some s0 =>
          simp only [hu] at h1
          simp only [Prod.mk.injEq, true_and] at h1
          subst h1
          simp only [OptCompressed.Uncompressed.injEq] at h2
          subst h2
          simp [ITXtChunk.get_text, hoc, hd, hu]
  · intro c e h
    cases hoc : c.optionally_compressed_text with
    | Uncompressed s =>
      simp [ITXtChunk.decompress_text, hoc] at h
    | Compressed v =>
      simp only [ITXtChunk.decompress_text, hoc] at h
      cases hd : decompressModel v with
      | none =>
        rw [hd] at h
        simp only [Except.error.injEq] at h
        subst h
        simp [ITXtChunk.get_text, hoc, hd]
      | some raw =>
        simp only [hd] at h
        cases hu : utf8Decode raw with
        | none =>
          rw [hu] at h
          simp only [Except.error.injEq] at h
          subst h
          simp [ITXtChunk.get_text, hoc, hd, hu]
        | some s => rw [hu] at h; simp at h

/-- Witness for C7: reading the text of an uncompressed record, and of a
compressed record that a successful decompress_text turns into the same
text, plus the error agreement on a malformed stream. -/
theorem get_text_matches_decompress_witness :
    ZTXtChunk.get_text ⟨[75], OptCompressed.Uncompressed [65]⟩ =
      Except.ok [65] ∧
    ZTXtChunk.get_text ⟨[75], OptCompressed.Compressed [120, 1, 66]⟩ =
      Except.ok [66] ∧
    ITXtChunk.get_text ⟨[75], true, [], [], OptCompressed.Compressed [9]⟩ =
      Except.error TextDecodingError.InflationError := by
  refine ⟨?_, ?_, ?_⟩
  · exact get_text_matches_decompress.1 _ [65] rfl
  · exact get_text_matches_decompress.2.1
      ⟨[75], OptCompressed.Compressed [120, 1, 66]⟩
      ⟨[75], OptCompressed.Uncompressed [66]⟩ [66] rfl rfl
  · exact get_text_matches_decompress.2.2.2.2.2
      ⟨[75], true, [], [], OptCompressed.Compressed [9]⟩
      TextDecodingError.InflationError rfl

/-- C9: when the compression-state value holds bytes that are not a valid
compressed stream, get_text and decompress_text fail with InflationError
(they are total functions, so they cannot panic, and they return no text). -/
theorem malformed_stream_inflation_error :
    (∀ (c : ZTXtChunk) (v : List Nat),
      c.optionally_compressed_text = OptCompressed.Compressed v →
      decompressModel v = none →
      ZTXtChunk.get_text c = Except.error TextDecodingError.InflationError ∧
      (ZTXtChunk.decompress_text c).1 =
        Except.error TextDecodingError.InflationError) ∧
    (∀ (c : ITXtChunk) (v : List Nat),
      c.optionally_compressed_text = OptCompressed.Compressed v →
      decompressModel v = none →
      ITXtChunk.get_text c = Except.error TextDecodingError.InflationError ∧
      (ITXtChunk.decompress_text c).1 =
        Except.error TextDecodingError.InflationError) := by
  constructor
  · intro c v h hd
    constructor
    · simp [ZTXtChunk.get_text, h, hd]
    · simp [ZTXtChunk.decompress_text, h, hd]
  · intro c v h hd
    constructor
    · simp [ITXtChunk.get_text, h, hd]
    · simp [ITXtChunk.decompress_text, h, hd]

/-- Witness for C9: the stream [9] has no valid header, so both accessors of
both record kinds report InflationError. -/
theorem malformed_stream_inflation_error_witness :
    ZTXtChunk.get_text ⟨[75], OptCompressed.Compressed [9]⟩ =
      Except.error TextDecodingError.InflationError ∧
    (ITXtChunk.decompress_text ⟨[75], false, [], [], OptCompressed.Compressed [9]⟩).1 =
      Except.error TextDecodingError.InflationError := by
  constructor
  · exact (malformed_stream_inflation_error.1
      ⟨[75], OptCompressed.Compressed [9]⟩ [9] rfl rfl).1
  · exact (malformed_stream_inflation_error.2
      ⟨[75], false, [], [], OptCompressed.Compressed [9]⟩ [9] rfl rfl).2

/-- C10: when decompress_text or compress_text fails, the record is returned
with its compression-state value exactly as it was before the call: the
stored variant is only replaced on success. -/
theorem error_leaves_state_unchanged :
    (∀ (c : ZTXtChunk) (e : TextDecodingError),
      (ZTXtChunk.decompress_text c).1 = Except.error e →
      (ZTXtChunk.decompress_text c).2 = c) ∧
    (∀ (c : ZTXtChunk) (e : TextEncodingError),
      (ZTXtChunk.compress_text c).1 = Except.error e →
      (ZTXtChunk.compress_text c).2 = c) ∧
    (∀ (c : ITXtChunk) (e : TextDecodingError),
      (ITXtChunk.decompress_text c).1 = Except.error e →
      (ITXtChunk.decompress_text c).2 = c) ∧
    (∀ (c : ITXtChunk) (e : TextEncodingError),
      (ITXtChunk.compress_text c).1 = Except.error e →
      (ITXtChunk.compress_text c).2 = c) := by
  refine ⟨?_, ?_, ?_, ?_⟩
  · intro c e h
    cases hoc : c.optionally_compressed_text with
    | Uncompressed s => simp [ZTXtChunk.decompress_text, hoc]
    | Compressed v =>
      simp only [ZTXtChunk.decompress_text, hoc] at h ⊢
      cases hd : decompressModel v with
      | none => simp [hd]
      | some raw =>
        simp only [hd] at h ⊢
        cases hl : latin1Decode raw with
        | none => simp [hl]
        | some s => rw [hl] at h; simp at h
  · intro c e h
    cases hoc : c.optionally_compressed_text with
    | Compressed v => simp [ZTXtChunk.compress_text, hoc]
    | Uncompressed s =>
      simp only [ZTXtChunk.compress_text, hoc] at h ⊢
      cases hs : latin1Encode s with
      | none => simp [hs]
      | some raw => rw [hs] at h; simp at h
  · intro c e h
    cases hoc : c.optionally_compressed_text with
    | Uncompressed s => simp [ITXtChunk.decompress_text, hoc]
    | Compressed v =>
      simp only [ITXtChunk.decompress_text, hoc] at h ⊢
      cases hd : decompressModel v with
      | none => simp [hd]
      | some raw =>
        simp only [hd] at h ⊢
        cases hu : utf8Decode raw with
        | none => simp [hu]
        | some s => rw [hu] at h; simp at h
  · intro c e h
    cases hoc : c.optionally_compressed_text with
    | Compressed v => simp [ITXtChunk.compress_text, hoc]
    | Uncompressed s => simp [ITXtChunk.compress_text, hoc] at h

/-- Witness for C10: a failing decompress (bad stream [9]) and a failing
compress (code point 300 is not Latin-1 encodable) leave the record intact. -/
theorem error_leaves_state_unchanged_witness :
    (ZTXtChunk.decompress_text ⟨[75], OptCompressed.Compressed [9]⟩).2 =
      ⟨[75], OptCompressed.Compressed [9]⟩ ∧
    (ZTXtChunk.compress_text ⟨[75], OptCompressed.Uncompressed [300]⟩).2 =
      ⟨[75], OptCompressed.Uncompressed [300]⟩ := by
  constructor
  · exact error_leaves_state_unchanged.1 _ TextDecodingError.InflationError rfl
  · exact error_leaves_state_unchanged.2.1 _ TextEncodingError.Unrepresentable rfl

/-- C8: for every record kind, the sink is untouched when encode fails, and
on success it receives exactly the one complete framed payload. -/
theorem encode_all_or_nothing :
    (∀ (c : TEXtChunk) (w : List Nat),
      (∀ e, (TEXtChunk.encode c w).1 = Except.error e →
        (TEXtChunk.encode c w).2 = w) ∧
      ((TEXtChunk.encode c w).1 = Except.ok () →
        ∃ d, TEXtChunk.buildData c = Except.ok d ∧
          (TEXtChunk.encode c w).2 = writeChunk w tEXtTag d)) ∧
    (∀ (c : ZTXtChunk) (w : List Nat),
      (∀ e, (ZTXtChunk.encode c w).1 = Except.error e →
        (ZTXtChunk.encode c w).2 = w) ∧
      ((ZTXtChunk.encode c w).1 = Except.ok () →
        ∃ d, ZTXtChunk.buildData c = Except.ok d ∧
          (ZTXtChunk.encode c w).2 = writeChunk w zTXtTag d)) ∧
    (∀ (c : ITXtChunk) (w : List Nat),
      (∀ e, (ITXtChunk.encode c w).1 = Except.error e →
        (ITXtChunk.encode c w).2 = w) ∧
      ((ITXtChunk.encode c w).1 = Except.ok () →
        ∃ d, ITXtChunk.buildData c = Except.ok d ∧
          (ITXtChunk.encode c w).2 = writeChunk w iTXtTag d)) := by
  refine ⟨?_, ?_, ?_⟩
  · intro c w
    cases hb : TEXtChunk.buildData c with
    | error e => simp [TEXtChunk.encode, hb]
    | ok d => simp [TEXtChunk.encode, hb]
  · intro c w
    cases hb : ZTXtChunk.buildData c with
    | error e => simp [ZTXtChunk.encode, hb]
    | ok d => simp [ZTXtChunk.encode, hb]
  · intro c w
    cases hb : ITXtChunk.buildData c with
    | error e => simp [ITXtChunk.encode, hb]
    | ok d => simp [ITXtChunk.encode, hb]

/-- Witness for C8: encoding a record with an empty keyword leaves the sink
[5] untouched; encoding a valid record appends exactly the framed payload. -/
theorem encode_all_or_nothing_witness :
    (TEXtChunk.encode ⟨[], [65]⟩ [5]).2 = [5] ∧
    (TEXtChunk.encode ⟨[75], [65]⟩ []).2 = writeChunk [] tEXtTag [75, 0, 65] := by
  constructor
  · exact (encode_all_or_nothing.1 ⟨[], [65]⟩ [5]).1
      TextEncodingError.InvalidKeywordSize rfl
  · obtain ⟨d, hd, hw⟩ := (encode_all_or_nothing.1 ⟨[75], [65]⟩ []).2 rfl
    have : d = [75, 0, 65] := by
      have : TEXtChunk.buildData ⟨[75], [65]⟩ = Except.ok [75, 0, 65] := rfl
      rw [this] at hd
      exact (Except.ok.injEq _ _ ▸ hd).symm
    rw [← this]
    exact hw

/-- C2: at encode time the compressed flag alone determines the wire form of
the international-text field: with the flag clear a cached compressed text is
decompressed and emitted as plaintext; with the flag set a cached decoded
text is compressed before writing; the flag byte is 255 when the flag is set
and 0 otherwise (visible in the emitted payload below). -/
theorem itxt_flag_drives_wire (c : ITXtChunk)
    (hk : c.keyword.all (fun x => x < 256) = true)
    (hk1 : 1 ≤ c.keyword.length) (hk2 : c.keyword.length ≤ 79)
    (hlg : c.language_tag.all (fun x => x < 128) = true) :
    (∀ v raw, c.compressed = false →
      c.optionally_compressed_text = OptCompressed.Compressed v →
      decompressModel v = some raw →
      ITXtChunk.buildData c = Except.ok
        ((c.keyword ++ 0 :: 0 :: 0 ::
          (c.language_tag ++ 0 :: (c.translated_keyword ++ [0]))) ++ raw)) ∧
    (∀ s, c.compressed = false →
      c.optionally_compressed_text = OptCompressed.Uncompressed s →
      ITXtChunk.buildData c = Except.ok
        ((c.keyword ++ 0 :: 0 :: 0 ::
          (c.language_tag ++ 0 :: (c.translated_keyword ++ [0]))) ++ s)) ∧
    (∀ s, c.compressed = true →
      c.optionally_compressed_text = OptCompressed.Uncompressed s →
      ITXtChunk.buildData c = Except.ok
        ((c.keyword ++ 0 :: 255 :: 0 ::
          (c.language_tag ++ 0 :: (c.translated_keyword ++ [0]))) ++
          compressModel s)) ∧
    (∀ v, c.compressed = true →
      c.optionally_compressed_text = OptCompressed.Compressed v →
      ITXtChunk.buildData c = Except.ok
        ((c.keyword ++ 0 :: 255 :: 0 ::
          (c.language_tag ++ 0 :: (c.translated_keyword ++ [0]))) ++ v)) := by
  have hguard : ¬(c.keyword.length = 0 ∨ 79 < c.keyword.length) := by omega
  refine ⟨?_, ?_, ?_, ?_⟩
  · intro v raw hcp hoc hd
    simp only [ITXtChunk.buildData, latin1Encode_of_all hk,
      asciiEncode_of_all hlg, hcp, hoc, hd, utf8Bytes]
    rw [if_neg hguard]
    simp
  · intro s hcp hoc
    simp only [ITXtChunk.buildData, latin1Encode_of_all hk,
      asciiEncode_of_all hlg, hcp, hoc, utf8Bytes]
    rw [if_neg hguard]
    simp
  · intro s hcp hoc
    simp only [ITXtChunk.buildData, latin1Encode_of_all hk,
      asciiEncode_of_all hlg, hcp, hoc, utf8Bytes]
    rw [if_neg hguard]
    simp
  · intro v hcp hoc
    simp only [ITXtChunk.buildData, latin1Encode_of_all hk,
      asciiEncode_of_all hlg, hcp, hoc, utf8Bytes]
    rw [if_neg hguard]
    simp

/-- Witness for C2: with the flag clear and a cached compressed text
[120, 1, 66], the payload carries the plaintext [66]; with the flag set and a
cached decoded text [66], the payload carries the compressed [120, 1, 66]. -/
theorem itxt_flag_drives_wire_witness :
    ITXtChunk.buildData ⟨[75], false, [], [], OptCompressed.Compressed [120, 1, 66]⟩ =
      Except.ok (([75] ++ 0 :: 0 :: 0 :: ([] ++ 0 :: ([] ++ [0]))) ++ [66]) ∧
    ITXtChunk.buildData ⟨[75], true, [], [], OptCompressed.Uncompressed [66]⟩ =
      Except.ok (([75] ++ 0 :: 255 :: 0 :: ([] ++ 0 :: ([] ++ [0]))) ++
        compressModel [66]) := by
  constructor
  · exact (itxt_flag_drives_wire ⟨[75], false, [], [], OptCompressed.Compressed [120, 1, 66]⟩
      (by decide) (by decide) (by decide) (by decide)).1 [120, 1, 66] [66] rfl rfl rfl
  · exact (itxt_flag_drives_wire ⟨[75], true, [], [], OptCompressed.Uncompressed [66]⟩
      (by decide) (by decide) (by decide) (by decide)).2.2.1 [66] rfl rfl

/-- C1: decoding the payload produced by encoding a valid record (its fields
re-sliced exactly as encode laid them out) gives back the original record,
except that the compression-state value may hold the other variant, in which
case the decoded text content (get_text) agrees. -/
theorem encode_decode_round_trip :
    (∀ (r : TEXtChunk) (d : List Nat),
      TEXtChunk.buildData r = Except.ok d →
      d = r.keyword ++ 0 :: r.text ∧
      TEXtChunk.decode r.keyword r.text = Except.ok r) ∧
    (∀ (r : ZTXtChunk) (d : List Nat),
      ZTXtChunk.buildData r = Except.ok d →
      ∃ tw, d = r.keyword ++ 0 :: 0 :: tw ∧
        ∃ r', ZTXtChunk.decode r.keyword 0 tw = Except.ok r' ∧
          r'.keyword = r.keyword ∧
          ZTXtChunk.get_text r' = ZTXtChunk.get_text r) ∧
    (∀ (r : ITXtChunk) (d : List Nat),
      ITXtChunk.buildData r = Except.ok d →
      ITXtChunk.textFieldsValid r = true →
      ∃ tw, d = (r.keyword ++ 0 :: (if r.compressed then 255 else 0) :: 0 ::
          (r.language_tag ++ 0 :: (r.translated_keyword ++ [0]))) ++ tw ∧
        ∃ r', ITXtChunk.decode r.keyword (if r.compressed then 255 else 0) 0
            r.language_tag r.translated_keyword tw = Except.ok r' ∧
          r'.keyword = r.keyword ∧ r'.compressed = r.compressed ∧
          r'.language_tag = r.language_tag ∧
          r'.translated_keyword = r.translated_keyword ∧
          ITXtChunk.get_text r' = ITXtChunk.get_text r) := by
  refine ⟨?_, ?_, ?_⟩
  · rintro ⟨kw, tx⟩ d hb
    simp only [TEXtChunk.buildData] at hb
    cases hk : latin1Encode kw with
    | none => rw [hk] at hb; simp at hb
    | some kwe =>
      obtain ⟨hkall, hkwe⟩ := latin1Encode_some hk
      subst hkwe
      simp only [hk] at hb
      split at hb
      · simp at hb
      · rename_i hguard
        cases ht : latin1Encode tx with
        | none => rw [ht] at hb; simp at hb
        | some txe =>
          obtain ⟨htall, htxe⟩ := latin1Encode_some ht
          subst htxe
          simp only [ht, Except.ok.injEq] at hb
          subst hb
          refine ⟨rfl, ?_⟩
          simp only [TEXtChunk.decode]
          rw [if_neg hguard]
          simp [latin1Decode_of_all hkall, latin1Decode_of_all htall]
  · rintro ⟨kw, oc⟩ d hb
    simp only [ZTXtChunk.buildData] at hb
    cases hk : latin1Encode kw with
    | none => rw [hk] at hb; simp at hb
    | some kwe =>
      obtain ⟨hkall, hkwe⟩ := latin1Encode_some hk
      subst hkwe
      simp only [hk] at hb
      split at hb
      · simp at hb
      · rename_i hguard
        cases oc with
        | Compressed v =>
          simp only [Except.ok.injEq] at hb
          subst hb
          refine ⟨v, rfl, ⟨kwe, OptCompressed.Compressed v⟩, ?_, rfl, rfl⟩
          have hne : ¬kwe = [] := fun h => hguard (Or.inl (by rw [h]; rfl))
          have hle : kwe.length ≤ 79 := by omega
          simp [ZTXtChunk.decode, hne, hle, latin1Decode_of_all hkall]
        | Uncompressed s =>
          cases hs : latin1Encode s with
          | none => simp [hs] at hb
          | some raw =>
            obtain ⟨hsall, hsraw⟩ := latin1Encode_some hs
            subst hsraw
            simp only [hs, Except.ok.injEq] at hb
            subst hb
            refine ⟨compressModel raw, rfl,
              ⟨kwe, OptCompressed.Compressed (compressModel raw)⟩, ?_, rfl, ?_⟩
            · have hne : ¬kwe = [] := fun h => hguard (Or.inl (by rw [h]; rfl))
              have hle : kwe.length ≤ 79 := by omega
              simp [ZTXtChunk.decode, hne, hle, latin1Decode_of_all hkall]
            · simp [ZTXtChunk.get_text, decompress_compress,
                latin1Decode_of_all hsall]
  · rintro ⟨kw, cp, lg, tk, oc⟩ d hb hval
    simp only [ITXtChunk.textFieldsValid, Bool.and_eq_true] at hval
    obtain ⟨htk, hrest⟩ := hval
    simp only [ITXtChunk.buildData] at hb
    cases hk : latin1Encode kw with
    | none => rw [hk] at hb; simp at hb
    | some kwe =>
      obtain ⟨hkall, hkwe⟩ := latin1Encode_some hk
      subst hkwe
      simp only [hk] at hb
      split at hb
      · simp at hb
      · rename_i hguard
        cases hlg : asciiEncode lg with
        | none => simp [hlg] at hb
        | some lange =>
          obtain ⟨hlgall, hlange⟩ := asciiEncode_some hlg
          subst hlange
          simp only [hlg] at hb
          have hne : ¬kwe = [] := fun h => hguard (Or.inl (by rw [h]; rfl))
          have hle : kwe.length ≤ 79 := by omega
          cases cp with
          | true =>
            cases oc with
            | Compressed v =>
              simp only [utf8Bytes] at hb
              simp at hb
              subst hb
              refine ⟨v, by simp,
                ⟨kwe, true, lange, tk, OptCompressed.Compressed v⟩,
                ?_, rfl, rfl, rfl, rfl, rfl⟩
              simp [ITXtChunk.decode, ITXtChunk.decodeTail, hne, hle,
                latin1Decode_of_all hkall, asciiDecode_of_all hlgall,
                utf8Decode_of_valid htk]
            | Uncompressed s =>
              simp only at hrest
              simp only [utf8Bytes] at hb
              simp at hb
              subst hb
              refine ⟨compressModel s, by simp [compressModel],
                ⟨kwe, true, lange, tk, OptCompressed.Compressed (compressModel s)⟩,
                ?_, rfl, rfl, rfl, rfl, ?_⟩
              · simp [ITXtChunk.decode, ITXtChunk.decodeTail, hne, hle,
                  latin1Decode_of_all hkall, asciiDecode_of_all hlgall,
                  utf8Decode_of_valid htk]
              · simp [ITXtChunk.get_text, decompress_compress,
                  utf8Decode_of_valid hrest]
          | false =>
            cases oc with
            | Compressed v =>
              simp only at hrest
              simp only [utf8Bytes] at hb
              simp at hb
              cases hd : decompressModel v with
              | none => simp [hd] at hb
              | some raw =>
                simp only [hd] at hrest
                simp only [hd, Except.ok.injEq] at hb
                subst hb
                refine ⟨raw, by simp,
                  ⟨kwe, false, lange, tk, OptCompressed.Uncompressed raw⟩,
                  ?_, rfl, rfl, rfl, rfl, ?_⟩
                · simp [ITXtChunk.decode, ITXtChunk.decodeTail, hne, hle,
                    latin1Decode_of_all hkall, asciiDecode_of_all hlgall,
                    utf8Decode_of_valid htk, utf8Decode_of_valid hrest]
                · simp [ITXtChunk.get_text, hd, utf8Decode_of_valid hrest]
            | Uncompressed s =>
              simp only at hrest
              simp only [utf8Bytes] at hb
              simp at hb
              subst hb
              refine ⟨s, by simp,
                ⟨kwe, false, lange, tk, OptCompressed.Uncompressed s⟩,
                ?_, rfl, rfl, rfl, rfl, rfl⟩
              simp [ITXtChunk.decode, ITXtChunk.decodeTail, hne, hle,
                latin1Decode_of_all hkall, asciiDecode_of_all hlgall,
                utf8Decode_of_valid htk, utf8Decode_of_valid hrest]

/-- Witness for C1: round trips of the concrete records
keyword [75] / text [65] (tEXt and zTXt, the latter freshly compressed) and
the international record with language [104], translated keyword [66],
compressed flag set, text [67]. -/
theorem encode_decode_round_trip_witness :
    ([75, 0, 65] = [75] ++ 0 :: [65] ∧
      TEXtChunk.decode [75] [65] = Except.ok ⟨[75], [65]⟩) ∧
    (∃ tw, [75, 0, 0, 120, 1, 65] = [75] ++ 0 :: 0 :: tw ∧
      ∃ r', ZTXtChunk.decode [75] 0 tw = Except.ok r' ∧
        r'.keyword = [75] ∧
        ZTXtChunk.get_text r' =
          ZTXtChunk.get_text ⟨[75], OptCompressed.Uncompressed [65]⟩) ∧
    (∃ tw, [75, 0, 255, 0, 104, 0, 66, 0, 120, 1, 67] =
        ([75] ++ 0 :: 255 :: 0 :: ([104] ++ 0 :: ([66] ++ [0]))) ++ tw ∧
      ∃ r', ITXtChunk.decode [75] 255 0 [104] [66] tw = Except.ok r' ∧
        r'.keyword = [75] ∧ r'.compressed = true ∧
        r'.language_tag = [104] ∧ r'.translated_keyword = [66] ∧
        ITXtChunk.get_text r' =
          ITXtChunk.get_text ⟨[75], true, [104], [66],
            OptCompressed.Uncompressed [67]⟩) :=
  ⟨encode_decode_round_trip.1 ⟨[75], [65]⟩ [75, 0, 65] rfl,
   encode_decode_round_trip.2.1 ⟨[75], OptCompressed.Uncompressed [65]⟩
     [75, 0, 0, 120, 1, 65] rfl,
   encode_decode_round_trip.2.2
     ⟨[75], true, [104], [66], OptCompressed.Uncompressed [67]⟩
     [75, 0, 255, 0, 104, 0, 66, 0, 120, 1, 67] rfl rfl⟩
